import Mathlib

/-!
Verification development for the metaballs renderer (src/script.js, with the
inverse-square variant in src/unnamed/part_000).

The JavaScript floating-point arithmetic is shallowly embedded into the real
numbers: Math.sqrt, Math.exp, Math.sin, Math.cos, Math.atan2 and GLSL pow
become Real.sqrt, Real.exp, Real.sin, Real.cos, Complex.arg and Real rpow.
Definitions mirror the source expressions; the CPU rasterizer and the GPU
fragment shader are embedded separately because comparing the two paths is
itself one of the verified properties.
-/

namespace Metaballs

noncomputable section

/-! ## Field math (script.js lines 9-57 shader, 848-921 CPU rasterizer) -/

/-- Embeds the helper smoothstep(edge0, edge1, x) of script.js lines 918-921;
the GLSL built-in smoothstep used by the fragment shader computes the same
clamped Hermite polynomial. -/
def smoothstep (edge0 edge1 x : ℝ) : ℝ :=
  let t := max 0 (min 1 ((x - edge0) / (edge1 - edge0)))
  t * t * (3 - 2 * t)

/-- Embeds the CPU falloff of renderCanvas2D lines 884-886:
normalizedDist = dist / (radius * 3); field = Math.max(0, 1 - normalizedDist) ** 2. -/
def cpuField (dist radius : ℝ) : ℝ :=
  (max 0 (1 - dist / (radius * 3))) ^ 2

/-- Embeds fieldFalloff of the fragment shader, lines 21-24:
pow(max(0.0, 1.0 - dist / (radius * 3.0)), 2.0); the GLSL pow with real
exponent 2.0 is embedded as Real rpow. -/
def fieldFalloff (dist radius : ℝ) : ℝ :=
  (max 0 (1 - dist / (radius * 3.0))) ^ (2.0 : ℝ)

/-- Glow scale hardcoded in renderCanvas2D line 856: glowFactor = glow * 0.015. -/
def cpuGlowScale : ℝ := 0.015
/-- Glow scale hardcoded in the fragment shader line 50: u_glow * 0.03. -/
def gpuGlowScale : ℝ := 0.03
/-- Alpha cap of the CPU rasterizer, line 910: Math.min(0.95, intensity). -/
def cpuAlphaCap : ℝ := 0.95
/-- Alpha cap of the fragment shader, line 52: min(0.99, alpha). -/
def gpuAlphaCap : ℝ := 0.99

/-- Embeds the intensity of a painted CPU sample, lines 905-908:
edge = smoothstep(0, threshold * 2, totalField) with threshold = th * 0.003,
intensity = edge * Math.min(1.5, Math.sqrt(totalField) * glowFactor). -/
def cpuIntensity (tf th glow : ℝ) : ℝ :=
  smoothstep 0 (th * 0.003 * 2) tf * min 1.5 (Real.sqrt tf * (glow * cpuGlowScale))

/-- Alpha of a painted CPU sample, line 910. -/
def cpuAlpha (tf th glow : ℝ) : ℝ :=
  min cpuAlphaCap (cpuIntensity tf th glow)

/-- Embeds the unclamped fragment alpha of shader lines 46-50:
core and halo smoothsteps, brightness = pow(totalField, 0.4),
alpha = core * u_glow * 0.03 * brightness + halo * 0.3 * brightness. -/
def gpuAlphaRaw (tf th glow : ℝ) : ℝ :=
  smoothstep (th * 0.003) (th * 0.005) tf * glow * gpuGlowScale * tf ^ (0.4 : ℝ)
    + smoothstep (th * 0.0005) (th * 0.04) tf * 0.3 * tf ^ (0.4 : ℝ)

/-- Alpha written by the fragment shader, line 52. -/
def gpuAlpha (tf th glow : ℝ) : ℝ :=
  min gpuAlphaCap (gpuAlphaRaw tf th glow)

/-! ## Ball store (script.js lines 83-160) -/

/-- One metaball entity, with the fields the constructor of script.js gives it
(lines 83-114 plus the physics fields added at lines 154-160). The color array
color[0..2] becomes the three channel fields; the hue field, used only by the
color-cycling effect, is not modeled. -/
structure Ball where
  x : ℝ
  y : ℝ
  radius : ℝ
  colorR : ℝ
  colorG : ℝ
  colorB : ℝ
  angle : ℝ
  orbitRadius : ℝ
  orbitSpeed : ℝ
  isDragging : Bool
  vx : ℝ
  vy : ℝ
  mass : ℝ

instance : Inhabited Ball :=
  ⟨⟨0, 0, 0, 0, 0, 0, 0, 0, 0, false, 0, 0, 0⟩⟩

/-! ## Per-sample field accumulation, CPU path (renderCanvas2D lines 873-893) -/

/-- Distance from sample point to a ball center:
dist = Math.sqrt(dx * dx + dy * dy), lines 880-882. -/
def sampleDist (px py : ℝ) (b : Ball) : ℝ :=
  Real.sqrt ((px - b.x) * (px - b.x) + (py - b.y) * (py - b.y))

/-- Field contribution of one ball at a sample point, CPU path. -/
def cpuFieldAt (px py : ℝ) (b : Ball) : ℝ :=
  cpuField (sampleDist px py b) b.radius

/-- totalField accumulated over the ball list, line 892. -/
def cpuTotalField (balls : List Ball) (px py : ℝ) : ℝ :=
  (balls.map (cpuFieldAt px py)).sum

/-- Field-weighted red sum, line 889: r += balls[i].r * field. -/
def cpuRedSum (balls : List Ball) (px py : ℝ) : ℝ :=
  (balls.map fun b => b.colorR * cpuFieldAt px py b).sum

/-- Field-weighted green sum, line 890. -/
def cpuGreenSum (balls : List Ball) (px py : ℝ) : ℝ :=
  (balls.map fun b => b.colorG * cpuFieldAt px py b).sum

/-- Field-weighted blue sum, line 891. -/
def cpuBlueSum (balls : List Ball) (px py : ℝ) : ℝ :=
  (balls.map fun b => b.colorB * cpuFieldAt px py b).sum

/-- Normalized mixed red channel, line 899 (r /= totalField). -/
def cpuMixedR (balls : List Ball) (px py : ℝ) : ℝ :=
  cpuRedSum balls px py / cpuTotalField balls px py

/-- Normalized mixed green channel, line 900. -/
def cpuMixedG (balls : List Ball) (px py : ℝ) : ℝ :=
  cpuGreenSum balls px py / cpuTotalField balls px py

/-- Normalized mixed blue channel, line 901. -/
def cpuMixedB (balls : List Ball) (px py : ℝ) : ℝ :=
  cpuBlueSum balls px py / cpuTotalField balls px py

/-- Embeds the epsilon guard of lines 898-902: a channel sum is divided by
totalField only when totalField > 0.001, otherwise kept unnormalized. -/
def normalizeChannel (tf c : ℝ) : ℝ :=
  if 0.001 < tf then c / tf else c

/-- One CPU sample of renderCanvas2D lines 873-912: none when totalField does
not exceed threshold * 0.003 (nothing painted), otherwise the rgba fill values;
the JavaScript `value | 0` truncation of the nonnegative 0-255 channels is
embedded as the integer floor. -/
def cpuPixel (balls : List Ball) (px py th glow : ℝ) : Option (ℤ × ℤ × ℤ × ℝ) :=
  let tf := cpuTotalField balls px py
  if th * 0.003 < tf then
    let r := normalizeChannel tf (cpuRedSum balls px py)
    let g := normalizeChannel tf (cpuGreenSum balls px py)
    let b := normalizeChannel tf (cpuBlueSum balls px py)
    let intensity := cpuIntensity tf th glow
    some (⌊r * 255 * intensity⌋, ⌊g * 255 * intensity⌋, ⌊b * 255 * intensity⌋,
      cpuAlpha tf th glow)
  else
    none

/-! ## Per-fragment evaluation, GPU path (fragment shader lines 26-56) -/

/-- Field contribution of one ball in the fragment shader main loop, line 37. -/
def gpuFieldAt (px py : ℝ) (b : Ball) : ℝ :=
  fieldFalloff (sampleDist px py b) b.radius

/-- totalField accumulated by the fragment shader loop, line 39. -/
def gpuTotalField (balls : List Ball) (px py : ℝ) : ℝ :=
  (balls.map (gpuFieldAt px py)).sum

/-- weightedColor red component, line 40. -/
def gpuRedSum (balls : List Ball) (px py : ℝ) : ℝ :=
  (balls.map fun b => b.colorR * gpuFieldAt px py b).sum

/-- weightedColor green component, line 40. -/
def gpuGreenSum (balls : List Ball) (px py : ℝ) : ℝ :=
  (balls.map fun b => b.colorG * gpuFieldAt px py b).sum

/-- weightedColor blue component, line 40. -/
def gpuBlueSum (balls : List Ball) (px py : ℝ) : ℝ :=
  (balls.map fun b => b.colorB * gpuFieldAt px py b).sum

/-- One fragment of the shader, lines 43-55: rgba written to gl_FragColor;
vec4(0.0) when totalField does not exceed u_threshold * 0.003. -/
def gpuFragment (balls : List Ball) (px py th glow : ℝ) : ℝ × ℝ × ℝ × ℝ :=
  let tf := gpuTotalField balls px py
  if th * 0.003 < tf then
    (gpuRedSum balls px py / tf, gpuGreenSum balls px py / tf,
      gpuBlueSum balls px py / tf, gpuAlpha tf th glow)
  else
    (0, 0, 0, 0)

/-! ## Inverse-square variant (src/unnamed/part_000, renderCanvas2D lines 484-522) -/

/-- Influence of one ball in the inverse-square variant, lines 492, 500, 508:
inf = r2 / (dx * dx + dy * dy + 1) with r2 the squared (scaled) radius. -/
def invSqInfluenceAt (px py : ℝ) (b : Ball) : ℝ :=
  b.radius * b.radius / ((px - b.x) * (px - b.x) + (py - b.y) * (py - b.y) + 1)

/-- Total influence accumulated over the balls in the inverse-square variant. -/
def invSqTotal (balls : List Ball) (px py : ℝ) : ℝ :=
  (balls.map (invSqInfluenceAt px py)).sum

/-! ## Physics (script.js lines 285-374) -/

/-- The four physics toggles of this.effects consulted by updateMetaballs
(lines 141-151; the purely visual toggles are not modeled). -/
structure Effects where
  gravity : Bool
  collision : Bool
  mouseAttraction : Bool
  mouseRepulsion : Bool

/-- Center distance of a ball pair as handleCollisions computes it, line 321. -/
def pairDist (b1 b2 : Ball) : ℝ :=
  Real.sqrt ((b2.x - b1.x) * (b2.x - b1.x) + (b2.y - b1.y) * (b2.y - b1.y))

/-- Relative velocity along the contact normal, handleCollisions lines 325-330:
dot = dvx * nx + dvy * ny with nx = dx / dist, ny = dy / dist. -/
def relDot (b1 b2 : Ball) : ℝ :=
  (b2.vx - b1.vx) * ((b2.x - b1.x) / pairDist b1 b2)
    + (b2.vy - b1.vy) * ((b2.y - b1.y) / pairDist b1 b2)

/-- Response of handleCollisions for one (ball1, ball2) pair, lines 319-350:
when the centers are closer than 0.8 of the summed radii and apart, and the
pair is not separating (dot > 0 skips), an impulse 2 * dot / (m1 + m2) is
applied to both velocities and the pair is pushed apart by half the overlap
each along the normal. -/
def collidePair (b1 b2 : Ball) : Ball × Ball :=
  let dx := b2.x - b1.x
  let dy := b2.y - b1.y
  let dist := pairDist b1 b2
  let minDist := (b1.radius + b2.radius) * 0.8
  if dist < minDist ∧ 0 < dist then
    let nx := dx / dist
    let ny := dy / dist
    let dot := relDot b1 b2
    if 0 < dot then (b1, b2)
    else
      let impulse := 2 * dot / (b1.mass + b2.mass)
      let c1 := { b1 with vx := b1.vx + impulse * b2.mass * nx,
                          vy := b1.vy + impulse * b2.mass * ny }
      let c2 := { b2 with vx := b2.vx - impulse * b1.mass * nx,
                          vy := b2.vy - impulse * b1.mass * ny }
      let overlap := minDist - dist
      let sx := nx * overlap * 0.5
      let sy := ny * overlap * 0.5
      ({ c1 with x := c1.x - sx, y := c1.y - sy },
       { c2 with x := c2.x + sx, y := c2.y + sy })
  else (b1, b2)

/-- Pairwise gravity kick of applyGravity, lines 293-307: within the distance
band (10, 500), the force G * m1 * m2 / distSq with G = 0.3 accelerates both
balls toward each other. -/
def gravPair (b1 b2 : Ball) : Ball × Ball :=
  let dx := b2.x - b1.x
  let dy := b2.y - b1.y
  let distSq := dx * dx + dy * dy
  let dist := Real.sqrt distSq
  if 10 < dist ∧ dist < 500 then
    let force := 0.3 * (b1.mass * b2.mass) / distSq
    let fx := force * dx / dist
    let fy := force * dy / dist
    ({ b1 with vx := b1.vx + fx / b1.mass, vy := b1.vy + fy / b1.mass },
     { b2 with vx := b2.vx - fx / b2.mass, vy := b2.vy - fy / b2.mass })
  else (b1, b2)

/-- Inner j-loop of the pairwise double loops (applyGravity lines 289-308 and
handleCollisions lines 315-351): the row ball accumulates updates against every
later ball, each of which is updated in place. -/
def sweepWithAll (f : Ball → Ball → Ball × Ball) (b : Ball) : List Ball → Ball × List Ball
  | [] => (b, [])
  | c :: cs =>
    let q := f b c
    let r := sweepWithAll f q.1 cs
    (r.1, q.2 :: r.2)

/-- Outer i-loop of the pairwise double loops: each row ball is swept against
the suffix of later (already partially updated) balls, exactly as the in-place
nested loops of the source do. -/
def sweepRows (f : Ball → Ball → Ball × Ball) : List Ball → List Ball
  | [] => []
  | b :: bs =>
    let p := sweepWithAll f b bs
    p.1 :: sweepRows f p.2
termination_by l => l.length
decreasing_by
  have h : ∀ (g : Ball → Ball → Ball × Ball) (a : Ball) (l : List Ball),
      (sweepWithAll g a l).2.length = l.length := by
    intro g a l
    induction l generalizing a with
    | nil => rfl
    | cons c cs ih => simp [sweepWithAll, ih]
  simp [h]

/-- applyGravity, lines 286-310. -/
def applyGravity (balls : List Ball) : List Ball :=
  sweepRows gravPair balls

/-- handleCollisions, lines 313-353. -/
def handleCollisions (balls : List Ball) : List Ball :=
  sweepRows collidePair balls

/-- Per-ball body of applyMouseForce, lines 360-373: non-dragged balls within
distance (1, 400) of the pointer get an acceleration along the pointer offset,
scaled by force / dist and the signed direction. -/
def mouseForceBall (mx my force dir : ℝ) (b : Ball) : Ball :=
  if b.isDragging then b
  else
    let dx := mx - b.x
    let dy := my - b.y
    let dist := Real.sqrt (dx * dx + dy * dy)
    if 1 < dist ∧ dist < 400 then
      let f := force * dir / dist
      { b with vx := b.vx + dx * f, vy := b.vy + dy * f }
    else b

/-- applyMouseForce, lines 356-374, over the ball list. -/
def applyMouseForce (mx my force dir : ℝ) (balls : List Ball) : List Ball :=
  balls.map (mouseForceBall mx my force dir)

/-! ## Motion integrator (updateMetaballs, lines 762-805) -/

/-- Orbital target x at the already advanced angle, line 793. -/
def orbitTargetX (speedFactor cx : ℝ) (b : Ball) : ℝ :=
  cx + Real.cos (b.angle + b.orbitSpeed * speedFactor) * b.orbitRadius

/-- Orbital target y at the already advanced angle, line 794. -/
def orbitTargetY (speedFactor cy : ℝ) (b : Ball) : ℝ :=
  cy + Real.sin (b.angle + b.orbitSpeed * speedFactor) * b.orbitRadius

/-- Orbital branch of the per-ball update, lines 791-802: advance the angle,
chase the orbit target with smoothing 1 - exp(-5 * dt), then add the sin/cos
wobble. -/
def orbitalStep (speedFactor dt cx cy : ℝ) (b : Ball) : Ball :=
  let angle := b.angle + b.orbitSpeed * speedFactor
  let smoothing := 1 - Real.exp (-5 * dt)
  let x1 := b.x + (orbitTargetX speedFactor cx b - b.x) * smoothing
  let y1 := b.y + (orbitTargetY speedFactor cy b - b.y) * smoothing
  { b with angle := angle,
           x := x1 + Real.sin (angle * 2) * 2,
           y := y1 + Real.cos (angle * 1.5) * 2 }

/-- Velocity-integration branch of the per-ball update, lines 777-790:
position += velocity * dt * 60, damping 0.99, then each axis reflects with
factor -0.7 and clamps into [radius, dimension - radius] when out of bounds. -/
def physicsStep (dt width height : ℝ) (b : Ball) : Ball :=
  let x1 := b.x + b.vx * dt * 60
  let y1 := b.y + b.vy * dt * 60
  let vx1 := b.vx * 0.99
  let vy1 := b.vy * 0.99
  let px := if x1 < b.radius ∨ width - b.radius < x1 then
      (max b.radius (min (width - b.radius) x1), vx1 * (-0.7))
    else (x1, vx1)
  let py := if y1 < b.radius ∨ height - b.radius < y1 then
      (max b.radius (min (height - b.radius) y1), vy1 * (-0.7))
    else (y1, vy1)
  { b with x := px.1, vx := px.2, y := py.1, vy := py.2 }

/-- Per-ball body of the updateMetaballs loop, lines 773-804: dragged balls are
skipped; otherwise the branch condition of line 777 (gravity, mouse attraction
or mouse repulsion -- collision is not part of it) selects velocity integration
over orbital motion. -/
def updateBall (eff : Effects) (speedFactor dt width height cx cy : ℝ) (b : Ball) : Ball :=
  if b.isDragging then b
  else if eff.gravity || eff.mouseAttraction || eff.mouseRepulsion then
    physicsStep dt width height b
  else
    orbitalStep speedFactor dt cx cy b

/-! ## Interaction (script.js lines 572-643) and simulation state -/

/-- Mouse state of the constructor, lines 116-122; the drag target reference
becomes an index into the ball list. -/
structure Mouse where
  mx : ℝ
  my : ℝ
  isDragging : Bool
  dragged : Option ℕ
  offx : ℝ
  offy : ℝ

/-- The simulation state the claims range over: the ball store, the mouse
state, the effect toggles and the configuration values updateMetaballs reads. -/
structure Sys where
  balls : List Ball
  mouse : Mouse
  effects : Effects
  speed : ℝ
  mouseForce : ℝ
  width : ℝ
  height : ℝ
  centerX : ℝ
  centerY : ℝ

/-- updateMetaballs, lines 762-805: cap dt, run the enabled physics passes,
then apply the per-ball update to every ball. -/
def updateMetaballs (s : Sys) (deltaTime : ℝ) : Sys :=
  let speedFactor := s.speed * 0.02
  let dt := min (deltaTime * 0.001) 0.1
  let b1 := if s.effects.gravity then applyGravity s.balls else s.balls
  let b2 := if s.effects.collision then handleCollisions b1 else b1
  let b3 := if s.effects.mouseAttraction || s.effects.mouseRepulsion then
      applyMouseForce s.mouse.mx s.mouse.my (s.mouseForce * 0.01)
        (if s.effects.mouseRepulsion then -1 else 1) b2
    else b2
  { s with balls := b3.map (updateBall s.effects speedFactor dt s.width s.height
      s.centerX s.centerY) }

/-- getMetaballUnderMouse, lines 633-643: walk the ball list from the last
(most recently added) element toward the first and return the first ball whose
center is within its radius of the query point, boundary included. The source
loop runs the index i downward, so later list elements take priority. -/
def getMetaballUnderMouse (balls : List Ball) (x y : ℝ) : Option Ball :=
  match balls with
  | [] => none
  | b :: rest =>
    match getMetaballUnderMouse rest x y with
    | some hit => some hit
    | none =>
      if (x - b.x) * (x - b.x) + (y - b.y) * (y - b.y) ≤ b.radius * b.radius then
        some b
      else none

/-- Math.atan2(y, x), embedded as the argument of the complex number x + y i;
both have range (-pi, pi]. -/
def atan2 (y x : ℝ) : ℝ := Complex.arg ⟨x, y⟩

/-- Ball part of handleMouseUp, lines 602-614: recompute the orbit parameters
from the drop position and clear the drag flag. -/
def handleMouseUpBall (cx cy : ℝ) (b : Ball) : Ball :=
  let dx := b.x - cx
  let dy := b.y - cy
  { b with orbitRadius := Real.sqrt (dx * dx + dy * dy),
           angle := atan2 dy dx,
           isDragging := false }

/-- handleMouseMove, lines 587-598: update the pointer, and while a drag is
active move only the dragged ball to pointer - offset (the cursor styling of
the non-dragging branch has no state in the model). -/
def handleMouseMove (s : Sys) (x y : ℝ) : Sys :=
  let m := { s.mouse with mx := x, my := y }
  match m.isDragging, m.dragged with
  | true, some i =>
    match s.balls.get? i with
    | some b =>
      { s with mouse := m,
               balls := s.balls.set i { b with x := x - m.offx, y := y - m.offy } }
    | none => { s with mouse := m }
  | _, _ => { s with mouse := m }

/-- handleMouseUp, lines 602-617, on the simulation state. -/
def handleMouseUp (s : Sys) : Sys :=
  match s.mouse.dragged with
  | some i =>
    match s.balls.get? i with
    | some b =>
      { s with balls := s.balls.set i (handleMouseUpBall s.centerX s.centerY b),
               mouse := { s.mouse with isDragging := false, dragged := none } }
    | none => { s with mouse := { s.mouse with isDragging := false, dragged := none } }
  | none => { s with mouse := { s.mouse with isDragging := false } }

/-! ## Concrete inputs used by witnesses and counterexamples -/

/-- Ball used by the C8 witness: unit radius at the origin, color (0.2, 0.5, 0.8). -/
def wBall : Ball :=
  ⟨0, 0, 1, 0.2, 0.5, 0.8, 0, 0, 0, false, 0, 0, 1⟩

/-- First ball of the C6 witness pair. -/
def cb1 : Ball := ⟨0, 0, 80, 1, 0, 0, 0, 0, 0, false, 3, 0, 80⟩
/-- Second ball of the C6 witness pair, 50 apart, moving toward the first. -/
def cb2 : Ball := ⟨50, 0, 80, 0, 1, 0, 0, 0, 0, false, -2, 0, 80⟩

/-- Ball used by the C1 counterexample: cyan ball of radius 80 at the origin,
sampled at its own center with the default threshold 200 and glow 130. -/
def c1Ball : Ball := ⟨0, 0, 80, 0, 1, 1, 0, 0, 0, false, 0, 0, 80⟩

/-- Dragged ball used by C7: dropped at (100, 0) with orbitSpeed pi, so one
tick advances the released angle by pi under speedFactor 1. -/
def c7Ball : Ball := ⟨100, 0, 80, 1, 0, 0, 0.5, 40, Real.pi, true, 0, 0, 80⟩

/-- Effects record with only the collision toggle enabled. -/
def effCollisionOnly : Effects := ⟨false, true, false, false⟩

/-- Ball used by the C4 counterexample: not dragged, with unit x velocity. -/
def c4Ball : Ball := ⟨100, 0, 10, 1, 0, 0, 0, 50, 1, false, 1, 0, 10⟩

/-- State used by the C4 counterexample: a single free ball with only the
collision effect enabled. -/
def c4Sys : Sys :=
  ⟨[c4Ball], ⟨0, 0, false, none, 0, 0⟩, effCollisionOnly, 10, 0, 800, 600, 400, 300⟩

/-- Dragged ball of the C5 counterexample, held at (100, 100). -/
def d0 : Ball := ⟨100, 100, 80, 1, 0, 0, 0, 0, 0, true, 0, 0, 80⟩
/-- Free ball of the C5 counterexample, overlapping the dragged one at center
distance 50 (minimum distance 128). -/
def d1 : Ball := ⟨130, 140, 80, 0, 1, 0, 0, 0, 0, false, 0, 0, 80⟩

/-- State used by the C5 counterexample: ball 0 is the drag target and the
collision effect is enabled. -/
def c5Sys : Sys :=
  ⟨[d0, d1], ⟨0, 0, true, some 0, 0, 0⟩, effCollisionOnly, 10, 0, 2000, 2000,
    1000, 1000⟩

/-- Auxiliary relation for the drag-authority invariant: two balls agree on
position and drag flag (velocities may differ). -/
def PosEq (a b : Ball) : Prop :=
  a.x = b.x ∧ a.y = b.y ∧ a.isDragging = b.isDragging

/-! ## Helper lemmas -/

/-- The GLSL falloff and the CPU falloff are the same function: the real power
2.0 coincides with squaring. -/
theorem fieldFalloff_eq (dist radius : ℝ) :
    fieldFalloff dist radius = cpuField dist radius := by
  unfold fieldFalloff cpuField
  rw [show (2.0 : ℝ) = ((2 : ℕ) : ℝ) by norm_num, Real.rpow_natCast]
  norm_num

theorem smoothstep_nonneg (e0 e1 x : ℝ) : 0 ≤ smoothstep e0 e1 x := by
  have key : ∀ t : ℝ, 0 ≤ t → t ≤ 1 → 0 ≤ t * t * (3 - 2 * t) := by
    intro t h0 h1
    nlinarith
  unfold smoothstep
  exact key _ (le_max_left _ _) (max_le (by norm_num) (min_le_left _ _))

theorem smoothstep_le_one (e0 e1 x : ℝ) : smoothstep e0 e1 x ≤ 1 := by
  have key : ∀ t : ℝ, 0 ≤ t → t ≤ 1 → t * t * (3 - 2 * t) ≤ 1 := by
    intro t h0 h1
    nlinarith [sq_nonneg (1 - t)]
  unfold smoothstep
  exact key _ (le_max_left _ _) (max_le (by norm_num) (min_le_left _ _))

theorem cpuField_nonneg (dist radius : ℝ) : 0 ≤ cpuField dist radius :=
  sq_nonneg _

/-! ## Claim C2 -/

/-- Claim C2 (amended): for r > 0 the falloff used by both renderers is
max(0, 1 - d/(r*3))^2 (the GLSL and CPU expressions agree); it is 1 at d = 0,
strictly decreasing on [0, r*3], and exactly 0 for d >= r*3 (hence constant,
not strictly decreasing, beyond r*3). -/
theorem c2_falloff_shape (r : ℝ) (hr : 0 < r) :
    cpuField 0 r = 1
    ∧ (∀ dist, fieldFalloff dist r = cpuField dist r)
    ∧ (∀ d1 d2, 0 ≤ d1 → d1 < d2 → d2 ≤ r * 3 → cpuField d2 r < cpuField d1 r)
    ∧ (∀ dist, r * 3 ≤ dist → cpuField dist r = 0) := by
  have h3 : 0 < r * 3 := by linarith
  refine ⟨?_, fun d => fieldFalloff_eq d r, ?_, ?_⟩
  · unfold cpuField
    norm_num
  · intro d1 d2 h0 h12 h2
    unfold cpuField
    have hu2 : 0 ≤ 1 - d2 / (r * 3) := by
      have : d2 / (r * 3) ≤ 1 := (div_le_one h3).mpr h2
      linarith
    have hlt : 1 - d2 / (r * 3) < 1 - d1 / (r * 3) := by
      have : d1 / (r * 3) < d2 / (r * 3) := by gcongr
      linarith
    rw [max_eq_right hu2, max_eq_right (le_of_lt (lt_of_le_of_lt hu2 hlt))]
    exact pow_lt_pow_left₀ hlt hu2 (by norm_num)
  · intro d hd
    unfold cpuField
    have hle : 1 - d / (r * 3) ≤ 0 := by
      have : (1 : ℝ) ≤ d / (r * 3) := (one_le_div h3).mpr hd
      linarith
    rw [max_eq_left hle]
    norm_num

/-- Witness for C2 at the concrete radius 1. -/
theorem c2_falloff_shape_witness :
    cpuField 0 1 = 1
    ∧ (∀ dist, fieldFalloff dist 1 = cpuField dist 1)
    ∧ (∀ d1 d2, 0 ≤ d1 → d1 < d2 → d2 ≤ 1 * 3 → cpuField d2 1 < cpuField d1 1)
    ∧ (∀ dist, 1 * 3 ≤ dist → cpuField dist 1 = 0) :=
  c2_falloff_shape 1 (by norm_num)

/-- Counterexample for C2 as stated: with radius 1, the falloff takes the same
value 0 at the distinct distances 3 and 4, so on the full domain d >= 0 it is
not strictly decreasing. -/
theorem c2_cex :
    (0 : ℝ) < 1 ∧ (0 : ℝ) ≤ 3 ∧ (3 : ℝ) < 4
    ∧ cpuField 3 1 = cpuField 4 1 ∧ cpuField 3 1 = 0 := by
  refine ⟨by norm_num, by norm_num, by norm_num, ?_, ?_⟩ <;>
    norm_num [cpuField, max_def]

/-! ## Claim C3 -/

/-- Claim C3: for nonnegative totalField, threshold and glow, the alpha of a
painted sample lies in [0, 0.95] on the CPU path and [0, 0.99] on the GPU
path, both caps strictly below 1. -/
theorem c3_alpha_bounds (tf th glow : ℝ) (htf : 0 ≤ tf) (_hth : 0 ≤ th)
    (hglow : 0 ≤ glow) :
    0 ≤ cpuAlpha tf th glow ∧ cpuAlpha tf th glow ≤ cpuAlphaCap
    ∧ 0 ≤ gpuAlpha tf th glow ∧ gpuAlpha tf th glow ≤ gpuAlphaCap
    ∧ cpuAlphaCap < 1 ∧ gpuAlphaCap < 1 := by
  have hint : 0 ≤ cpuIntensity tf th glow := by
    unfold cpuIntensity
    refine mul_nonneg (smoothstep_nonneg _ _ _) ?_
    exact le_min (by norm_num)
      (mul_nonneg (Real.sqrt_nonneg _) (mul_nonneg hglow (by norm_num [cpuGlowScale])))
  have hgraw : 0 ≤ gpuAlphaRaw tf th glow := by
    unfold gpuAlphaRaw
    have hb : 0 ≤ tf ^ (0.4 : ℝ) := Real.rpow_nonneg htf _
    refine add_nonneg ?_ ?_
    · exact mul_nonneg (mul_nonneg (mul_nonneg (smoothstep_nonneg _ _ _) hglow)
        (by norm_num [gpuGlowScale])) hb
    · exact mul_nonneg (mul_nonneg (smoothstep_nonneg _ _ _) (by norm_num)) hb
  exact ⟨le_min (by norm_num [cpuAlphaCap]) hint, min_le_left _ _,
    le_min (by norm_num [gpuAlphaCap]) hgraw, min_le_left _ _,
    by norm_num [cpuAlphaCap], by norm_num [gpuAlphaCap]⟩

/-! ## Claim C8 -/

theorem cpuFieldAt_nonneg (px py : ℝ) (b : Ball) : 0 ≤ cpuFieldAt px py b :=
  cpuField_nonneg _ _

/-- Upper half of the weighted-average bound: with nonnegative weights, the
weighted value sum is at most the bound times the weight sum. -/
theorem weighted_sum_le (l : List Ball) (v w : Ball → ℝ) (hi : ℝ)
    (hw : ∀ b ∈ l, 0 ≤ w b) (hv : ∀ b ∈ l, v b ≤ hi) :
    (l.map fun b => v b * w b).sum ≤ hi * (l.map w).sum := by
  induction l with
  | nil => simp
  | cons a as ih =>
    simp only [List.map_cons, List.sum_cons, mul_add]
    refine add_le_add ?_ (ih (fun b hb => hw b (by simp [hb]))
      (fun b hb => hv b (by simp [hb])))
    exact mul_le_mul_of_nonneg_right (hv a (by simp)) (hw a (by simp))

/-- Lower half of the weighted-average bound. -/
theorem le_weighted_sum (l : List Ball) (v w : Ball → ℝ) (lo : ℝ)
    (hw : ∀ b ∈ l, 0 ≤ w b) (hv : ∀ b ∈ l, lo ≤ v b) :
    lo * (l.map w).sum ≤ (l.map fun b => v b * w b).sum := by
  induction l with
  | nil => simp
  | cons a as ih =>
    simp only [List.map_cons, List.sum_cons, mul_add]
    refine add_le_add ?_ (ih (fun b hb => hw b (by simp [hb]))
      (fun b hb => hv b (by simp [hb])))
    exact mul_le_mul_of_nonneg_right (hv a (by simp)) (hw a (by simp))

/-- A field-weighted average of values lies between any bounds enclosing the
values, provided the weights are nonnegative and their sum is positive. -/
theorem weighted_avg_bounds (l : List Ball) (v w : Ball → ℝ) (lo hi : ℝ)
    (hw : ∀ b ∈ l, 0 ≤ w b) (hv : ∀ b ∈ l, lo ≤ v b ∧ v b ≤ hi)
    (hpos : 0 < (l.map w).sum) :
    lo ≤ (l.map fun b => v b * w b).sum / (l.map w).sum
      ∧ (l.map fun b => v b * w b).sum / (l.map w).sum ≤ hi := by
  constructor
  · rw [le_div_iff₀ hpos]
    exact le_weighted_sum l v w lo hw (fun b hb => (hv b hb).1)
  · rw [div_le_iff₀ hpos]
    exact weighted_sum_le l v w hi hw (fun b hb => (hv b hb).2)

/-- Claim C8: whenever totalField > 0, each channel of the blended color
sum(color * field) / sum(field) lies between the corresponding bounds of the
contributing balls' channels, so the mix is a convex combination. -/
theorem c8_blend_convex (balls : List Ball) (px py loR hiR loG hiG loB hiB : ℝ)
    (hpos : 0 < cpuTotalField balls px py)
    (hR : ∀ b ∈ balls, loR ≤ b.colorR ∧ b.colorR ≤ hiR)
    (hG : ∀ b ∈ balls, loG ≤ b.colorG ∧ b.colorG ≤ hiG)
    (hB : ∀ b ∈ balls, loB ≤ b.colorB ∧ b.colorB ≤ hiB) :
    (loR ≤ cpuMixedR balls px py ∧ cpuMixedR balls px py ≤ hiR)
    ∧ (loG ≤ cpuMixedG balls px py ∧ cpuMixedG balls px py ≤ hiG)
    ∧ (loB ≤ cpuMixedB balls px py ∧ cpuMixedB balls px py ≤ hiB) := by
  have hw : ∀ b ∈ balls, 0 ≤ cpuFieldAt px py b := fun b _ => cpuFieldAt_nonneg px py b
  exact ⟨weighted_avg_bounds balls (fun b => b.colorR) (cpuFieldAt px py) loR hiR hw hR hpos,
    weighted_avg_bounds balls (fun b => b.colorG) (cpuFieldAt px py) loG hiG hw hG hpos,
    weighted_avg_bounds balls (fun b => b.colorB) (cpuFieldAt px py) loB hiB hw hB hpos⟩

/-- Witness for C8: a single ball sampled at its center has totalField 1 and
the mixed color stays within the channel bounds [0, 1]. -/
theorem c8_blend_convex_witness :
    ((0 : ℝ) ≤ cpuMixedR [wBall] 0 0 ∧ cpuMixedR [wBall] 0 0 ≤ 1)
    ∧ ((0 : ℝ) ≤ cpuMixedG [wBall] 0 0 ∧ cpuMixedG [wBall] 0 0 ≤ 1)
    ∧ ((0 : ℝ) ≤ cpuMixedB [wBall] 0 0 ∧ cpuMixedB [wBall] 0 0 ≤ 1) := by
  refine c8_blend_convex [wBall] 0 0 0 1 0 1 0 1 ?_ ?_ ?_ ?_ <;>
    norm_num [cpuTotalField, cpuFieldAt, sampleDist, cpuField, wBall, Real.sqrt_zero, max_def]

/-! ## Claim C6 -/

/-- Claim C6: for a pair at positive center distance below 0.8 of the summed
radii, a separating pair (dot > 0) is left with unchanged velocities, and
otherwise the applied impulse conserves m1*v1 + m2*v2 on both axes exactly. -/
theorem c6_collision_momentum (b1 b2 : Ball)
    (hpos : 0 < pairDist b1 b2)
    (hlt : pairDist b1 b2 < (b1.radius + b2.radius) * 0.8) :
    (0 < relDot b1 b2 →
      (collidePair b1 b2).1.vx = b1.vx ∧ (collidePair b1 b2).1.vy = b1.vy
      ∧ (collidePair b1 b2).2.vx = b2.vx ∧ (collidePair b1 b2).2.vy = b2.vy)
    ∧ (¬ 0 < relDot b1 b2 →
      b1.mass * (collidePair b1 b2).1.vx + b2.mass * (collidePair b1 b2).2.vx
        = b1.mass * b1.vx + b2.mass * b2.vx
      ∧ b1.mass * (collidePair b1 b2).1.vy + b2.mass * (collidePair b1 b2).2.vy
        = b1.mass * b1.vy + b2.mass * b2.vy) := by
  constructor
  · intro hdot
    simp only [collidePair, if_pos (And.intro hlt hpos), if_pos hdot]
    exact ⟨trivial, trivial, trivial, trivial⟩
  · intro hdot
    simp only [collidePair, if_pos (And.intro hlt hpos), if_neg hdot]
    constructor <;> ring

/-- Witness for C6 at a concrete overlapping pair (center distance 50,
minimum distance 128). -/
theorem c6_collision_momentum_witness :
    (0 < relDot cb1 cb2 →
      (collidePair cb1 cb2).1.vx = cb1.vx ∧ (collidePair cb1 cb2).1.vy = cb1.vy
      ∧ (collidePair cb1 cb2).2.vx = cb2.vx ∧ (collidePair cb1 cb2).2.vy = cb2.vy)
    ∧ (¬ 0 < relDot cb1 cb2 →
      cb1.mass * (collidePair cb1 cb2).1.vx + cb2.mass * (collidePair cb1 cb2).2.vx
        = cb1.mass * cb1.vx + cb2.mass * cb2.vx
      ∧ cb1.mass * (collidePair cb1 cb2).1.vy + cb2.mass * (collidePair cb1 cb2).2.vy
        = cb1.mass * cb1.vy + cb2.mass * cb2.vy) := by
  have hd : pairDist cb1 cb2 = 50 := by
    unfold pairDist cb1 cb2
    rw [show ((50 : ℝ) - 0) * ((50 : ℝ) - 0) + ((0 : ℝ) - 0) * ((0 : ℝ) - 0)
        = 50 ^ 2 by norm_num]
    exact Real.sqrt_sq (by norm_num)
  exact c6_collision_momentum cb1 cb2 (by rw [hd]; norm_num)
    (by rw [hd]; unfold cb1 cb2; norm_num)

/-- Witness for C3 at totalField 1 with the default threshold 200 and glow 130. -/
theorem c3_alpha_bounds_witness :
    0 ≤ cpuAlpha 1 200 130 ∧ cpuAlpha 1 200 130 ≤ cpuAlphaCap
    ∧ 0 ≤ gpuAlpha 1 200 130 ∧ gpuAlpha 1 200 130 ≤ gpuAlphaCap
    ∧ cpuAlphaCap < 1 ∧ gpuAlphaCap < 1 :=
  c3_alpha_bounds 1 200 130 (by norm_num) (by norm_num) (by norm_num)

/-! ## Claim C9 -/

/-- The downward index loop of getMetaballUnderMouse is the first match of the
inclusive disc test over the reversed (most-recently-added first) ball list. -/
theorem getMetaballUnderMouse_eq_find (balls : List Ball) (x y : ℝ) :
    getMetaballUnderMouse balls x y
      = balls.reverse.find? (fun b =>
          decide ((x - b.x) * (x - b.x) + (y - b.y) * (y - b.y)
            ≤ b.radius * b.radius)) := by
  induction balls with
  | nil => rfl
  | cons a as ih =>
    rw [List.reverse_cons, List.find?_append]
    simp only [getMetaballUnderMouse, ih]
    cases h : as.reverse.find? (fun b =>
        decide ((x - b.x) * (x - b.x) + (y - b.y) * (y - b.y)
          ≤ b.radius * b.radius)) with
    | some hit => simp
    | none =>
      simp only [Option.none_orElse]
      by_cases hc : (x - a.x) * (x - a.x) + (y - a.y) * (y - a.y) ≤ a.radius * a.radius
      · simp [hc]
      · simp [hc]

/-- Claim C9: the hit test walks the balls in reverse z-order and returns the
first ball whose disc (boundary included) contains the query point, none
otherwise; a returned ball really contains the point, a none result means no
ball does, a query at exactly radius distance hits, and as a pure function the
result of repeated calls on unchanged state is the same. -/
theorem c9_hit_test (balls : List Ball) (x y : ℝ) :
    getMetaballUnderMouse balls x y
      = balls.reverse.find? (fun b =>
          decide ((x - b.x) * (x - b.x) + (y - b.y) * (y - b.y)
            ≤ b.radius * b.radius))
    ∧ (∀ b : Ball, getMetaballUnderMouse balls x y = some b →
        (x - b.x) * (x - b.x) + (y - b.y) * (y - b.y) ≤ b.radius * b.radius
        ∧ b ∈ balls)
    ∧ (getMetaballUnderMouse balls x y = none →
        ∀ b ∈ balls,
          ¬ (x - b.x) * (x - b.x) + (y - b.y) * (y - b.y) ≤ b.radius * b.radius)
    ∧ (∀ b : Ball,
        (x - b.x) * (x - b.x) + (y - b.y) * (y - b.y) = b.radius * b.radius →
        getMetaballUnderMouse [b] x y = some b)
    ∧ getMetaballUnderMouse balls x y = getMetaballUnderMouse balls x y := by
  refine ⟨getMetaballUnderMouse_eq_find balls x y, ?_, ?_, ?_, rfl⟩
  · intro b hb
    rw [getMetaballUnderMouse_eq_find balls x y] at hb
    have hmem := List.mem_of_find?_eq_some hb
    have hpred := List.find?_some hb
    rw [decide_eq_true_eq] at hpred
    exact ⟨hpred, (List.mem_reverse).mp hmem⟩
  · intro hnone b hmem hc
    rw [getMetaballUnderMouse_eq_find balls x y] at hnone
    have := List.find?_eq_none.mp hnone b ((List.mem_reverse).mpr hmem)
    rw [decide_eq_true_eq] at this
    exact this hc
  · intro b hb
    simp only [getMetaballUnderMouse]
    rw [if_pos (le_of_eq hb)]

/-! ## Claim C10 -/

/-- Claim C10: field blending never divides by zero: below the paint gate the
sample is skipped entirely; the epsilon guard skips the color normalization
when totalField is not above 0.001 and divides by a positive value otherwise;
and in the inverse-square variant the +1 keeps every denominator positive, the
influence positive at every point including the source, and the total
influence positive, so normalizing by it is well defined. -/
theorem c10_division_guards :
    (∀ (balls : List Ball) (px py th glow : ℝ),
      ¬ th * 0.003 < cpuTotalField balls px py →
      cpuPixel balls px py th glow = none)
    ∧ (∀ tf c : ℝ, ¬ 0.001 < tf → normalizeChannel tf c = c)
    ∧ (∀ tf c : ℝ, 0.001 < tf → normalizeChannel tf c = c / tf ∧ 0 < tf)
    ∧ (∀ (px py : ℝ) (b : Ball),
        0 < (px - b.x) * (px - b.x) + (py - b.y) * (py - b.y) + 1)
    ∧ (∀ (px py : ℝ) (b : Ball), 0 < b.radius → 0 < invSqInfluenceAt px py b)
    ∧ (∀ (balls : List Ball) (px py : ℝ), (∀ b ∈ balls, 0 < b.radius) →
        balls ≠ [] → 0 < invSqTotal balls px py) := by
  have hden : ∀ (px py : ℝ) (b : Ball),
      0 < (px - b.x) * (px - b.x) + (py - b.y) * (py - b.y) + 1 := by
    intro px py b
    nlinarith [mul_self_nonneg (px - b.x), mul_self_nonneg (py - b.y)]
  have hinf : ∀ (px py : ℝ) (b : Ball), 0 < b.radius →
      0 < invSqInfluenceAt px py b := by
    intro px py b hb
    exact div_pos (mul_pos hb hb) (hden px py b)
  refine ⟨?_, ?_, ?_, hden, hinf, ?_⟩
  · intro balls px py th glow h
    simp only [cpuPixel]
    rw [if_neg h]
  · intro tf c h
    simp only [normalizeChannel]
    rw [if_neg h]
  · intro tf c h
    refine ⟨?_, lt_trans (by norm_num) h⟩
    simp only [normalizeChannel]
    rw [if_pos h]
  · intro balls px py h hne
    unfold invSqTotal
    apply List.sum_pos
    · intro v hv
      obtain ⟨b, hb, rfl⟩ := List.mem_map.mp hv
      exact hinf px py b (h b hb)
    · simpa using hne

/-! ## Claim C1 -/

/-- The GPU and CPU field accumulations agree because the two falloffs agree. -/
theorem gpuTotalField_eq (balls : List Ball) (px py : ℝ) :
    gpuTotalField balls px py = cpuTotalField balls px py := by
  unfold gpuTotalField cpuTotalField gpuFieldAt cpuFieldAt
  simp [fieldFalloff_eq]

/-- Concrete evaluation of the CPU alpha law at totalField 1, threshold 200,
glow 130: the edge smoothstep gives 25/27, the intensity 25/18, so the cap
0.95 is taken. -/
theorem cpuAlpha_default : cpuAlpha 1 200 130 = 0.95 := by
  norm_num [cpuAlpha, cpuIntensity, cpuAlphaCap, cpuGlowScale, smoothstep,
    Real.sqrt_one, min_def, max_def]

/-- Concrete evaluation of the GPU alpha law at totalField 1, threshold 200,
glow 130: core saturates at 1, so the raw alpha exceeds 3.9 and the cap 0.99
is taken. -/
theorem gpuAlpha_default : gpuAlpha 1 200 130 = 0.99 := by
  norm_num [gpuAlpha, gpuAlphaRaw, gpuAlphaCap, gpuGlowScale, smoothstep,
    Real.one_rpow, min_def, max_def]

/-- Claim C1 (amended): the two paths share the falloff law (same K = 3), the
same accumulated field and the same paint gate totalField > threshold * 0.003,
but their alpha laws are hardcoded independently and differ: the glow scales
(0.015 vs 0.03) and alpha caps (0.95 vs 0.99) disagree, and at totalField 1
with the default threshold 200 and glow 130 the CPU paints alpha 0.95 while
the GPU paints 0.99. -/
theorem c1_field_parity_alpha_divergence :
    (∀ dist radius : ℝ, fieldFalloff dist radius = cpuField dist radius)
    ∧ (∀ (balls : List Ball) (px py : ℝ),
        gpuTotalField balls px py = cpuTotalField balls px py)
    ∧ (∀ (balls : List Ball) (px py th glow : ℝ),
        ¬ th * 0.003 < cpuTotalField balls px py →
        cpuPixel balls px py th glow = none
        ∧ gpuFragment balls px py th glow = (0, 0, 0, 0))
    ∧ cpuGlowScale ≠ gpuGlowScale
    ∧ cpuAlphaCap ≠ gpuAlphaCap
    ∧ cpuAlpha 1 200 130 = 0.95 ∧ gpuAlpha 1 200 130 = 0.99 := by
  refine ⟨fieldFalloff_eq, gpuTotalField_eq, ?_, ?_, ?_, cpuAlpha_default,
    gpuAlpha_default⟩
  · intro balls px py th glow h
    constructor
    · simp only [cpuPixel]
      rw [if_neg h]
    · simp only [gpuFragment]
      rw [gpuTotalField_eq, if_neg h]
  · norm_num [cpuGlowScale, gpuGlowScale]
  · norm_num [cpuAlphaCap, gpuAlphaCap]

/-- Counterexample for C1 as stated: a single cyan ball sampled at its own
center (totalField 1) under the default threshold 200 and glow 130 is painted
with alpha 0.95 by the CPU rasterizer but 0.99 by the GPU fragment shader. -/
theorem c1_cex :
    (cpuPixel [c1Ball] 0 0 200 130).map (fun p => p.2.2.2) = some 0.95
    ∧ (gpuFragment [c1Ball] 0 0 200 130).2.2.2 = 0.99
    ∧ (0.95 : ℝ) ≠ 0.99 := by
  have htf : cpuTotalField [c1Ball] 0 0 = 1 := by
    norm_num [cpuTotalField, cpuFieldAt, c1Ball, sampleDist, cpuField,
      Real.sqrt_zero, max_def]
  have hgate : (200 : ℝ) * 0.003 < 1 := by norm_num
  refine ⟨?_, ?_, by norm_num⟩
  · simp only [cpuPixel, htf]
    rw [if_pos hgate]
    simp [cpuAlpha_default]
  · simp only [gpuFragment, gpuTotalField_eq, htf]
    rw [if_pos hgate]
    simp [gpuAlpha_default]

/-! ## Claim C7 -/

theorem mk_ne_zero_of_not_both (dx dy : ℝ) (h : ¬ (dx = 0 ∧ dy = 0)) :
    (⟨dx, dy⟩ : ℂ) ≠ 0 := by
  intro hz
  rw [Complex.ext_iff] at hz
  exact h ⟨by simpa using hz.1, by simpa using hz.2⟩

theorem sqrt_mul_self_add_eq_abs (dx dy : ℝ) :
    Real.sqrt (dx * dx + dy * dy) = Complex.abs ⟨dx, dy⟩ := by
  rw [Complex.abs_apply, Complex.normSq_mk]

/-- Inverting atan2: the cosine of atan2(dy, dx) scaled by the vector length
recovers dx, provided the vector is nonzero. -/
theorem atan2_cos_mul (dy dx : ℝ) (h : ¬ (dx = 0 ∧ dy = 0)) :
    Real.cos (atan2 dy dx) * Real.sqrt (dx * dx + dy * dy) = dx := by
  have hz := mk_ne_zero_of_not_both dx dy h
  rw [atan2, sqrt_mul_self_add_eq_abs, Complex.cos_arg hz]
  exact div_mul_cancel₀ _ (Complex.abs.ne_zero hz)

/-- Inverting atan2: the sine of atan2(dy, dx) scaled by the vector length
recovers dy, provided the vector is nonzero. -/
theorem atan2_sin_mul (dy dx : ℝ) (h : ¬ (dx = 0 ∧ dy = 0)) :
    Real.sin (atan2 dy dx) * Real.sqrt (dx * dx + dy * dy) = dy := by
  have hz := mk_ne_zero_of_not_both dx dy h
  rw [atan2, sqrt_mul_self_add_eq_abs, Complex.sin_arg]
  exact div_mul_cancel₀ _ (Complex.abs.ne_zero hz)

/-- Claim C7 (amended): releasing a dragged ball at P sets orbitRadius to the
distance from P to the center and angle to atan2 of the offset, and the orbit
point at that released angle is exactly P; the very next orbital target,
however, is computed after the angle has already advanced by
orbitSpeed * speedFactor, so it is P rotated by that advance rather than P
itself. -/
theorem c7_release_orbit (cx cy : ℝ) (b : Ball)
    (h : ¬ (b.x - cx = 0 ∧ b.y - cy = 0)) :
    (handleMouseUpBall cx cy b).orbitRadius
      = Real.sqrt ((b.x - cx) * (b.x - cx) + (b.y - cy) * (b.y - cy))
    ∧ (handleMouseUpBall cx cy b).angle = atan2 (b.y - cy) (b.x - cx)
    ∧ (handleMouseUpBall cx cy b).isDragging = false
    ∧ cx + Real.cos ((handleMouseUpBall cx cy b).angle)
        * (handleMouseUpBall cx cy b).orbitRadius = b.x
    ∧ cy + Real.sin ((handleMouseUpBall cx cy b).angle)
        * (handleMouseUpBall cx cy b).orbitRadius = b.y
    ∧ (∀ speedFactor : ℝ,
        orbitTargetX speedFactor cx (handleMouseUpBall cx cy b)
          = cx + Real.cos (atan2 (b.y - cy) (b.x - cx)
              + b.orbitSpeed * speedFactor)
            * Real.sqrt ((b.x - cx) * (b.x - cx) + (b.y - cy) * (b.y - cy))) := by
  refine ⟨rfl, rfl, rfl, ?_, ?_, fun speedFactor => rfl⟩
  · have := atan2_cos_mul (b.y - cy) (b.x - cx) h
    simp only [handleMouseUpBall]
    linarith [this]
  · have := atan2_sin_mul (b.y - cy) (b.x - cx) h
    simp only [handleMouseUpBall]
    linarith [this]

/-- Witness for C7 at the concrete drop point (100, 0) about the origin. -/
theorem c7_release_orbit_witness :
    (handleMouseUpBall 0 0 c7Ball).orbitRadius
      = Real.sqrt ((c7Ball.x - 0) * (c7Ball.x - 0) + (c7Ball.y - 0) * (c7Ball.y - 0))
    ∧ (handleMouseUpBall 0 0 c7Ball).angle = atan2 (c7Ball.y - 0) (c7Ball.x - 0)
    ∧ (handleMouseUpBall 0 0 c7Ball).isDragging = false
    ∧ 0 + Real.cos ((handleMouseUpBall 0 0 c7Ball).angle)
        * (handleMouseUpBall 0 0 c7Ball).orbitRadius = c7Ball.x
    ∧ 0 + Real.sin ((handleMouseUpBall 0 0 c7Ball).angle)
        * (handleMouseUpBall 0 0 c7Ball).orbitRadius = c7Ball.y
    ∧ (∀ speedFactor : ℝ,
        orbitTargetX speedFactor 0 (handleMouseUpBall 0 0 c7Ball)
          = 0 + Real.cos (atan2 (c7Ball.y - 0) (c7Ball.x - 0)
              + c7Ball.orbitSpeed * speedFactor)
            * Real.sqrt ((c7Ball.x - 0) * (c7Ball.x - 0)
              + (c7Ball.y - 0) * (c7Ball.y - 0))) :=
  c7_release_orbit 0 0 c7Ball (by norm_num [c7Ball])

/-- Counterexample for C7 as stated: the ball dropped at (100, 0) with
orbitSpeed pi has, at speedFactor 1, next orbital target x equal to -100, not
the drop point 100: the integrator advances the angle before computing the
target. -/
theorem c7_cex :
    c7Ball.x = 100
    ∧ orbitTargetX 1 0 (handleMouseUpBall 0 0 c7Ball) = -100
    ∧ orbitTargetX 1 0 (handleMouseUpBall 0 0 c7Ball) ≠ c7Ball.x := by
  have harg : atan2 (0 : ℝ) 100 = 0 := by
    have h100 : ((⟨100, 0⟩ : ℂ)) = ((100 : ℝ) : ℂ) := by
      simp [Complex.ext_iff]
    rw [atan2, h100]
    exact Complex.arg_ofReal_of_nonneg (by norm_num)
  have hrad : Real.sqrt (10000 : ℝ) = 100 := by
    rw [show (10000 : ℝ) = 100 ^ 2 by norm_num]
    exact Real.sqrt_sq (by norm_num)
  have hang : (handleMouseUpBall 0 0 c7Ball).angle = 0 := by
    simp only [handleMouseUpBall, c7Ball]
    norm_num [harg]
  have horb : (handleMouseUpBall 0 0 c7Ball).orbitRadius = 100 := by
    simp only [handleMouseUpBall, c7Ball]
    norm_num [hrad]
  have hspeed : (handleMouseUpBall 0 0 c7Ball).orbitSpeed = Real.pi := by
    simp [handleMouseUpBall, c7Ball]
  have htarget : orbitTargetX 1 0 (handleMouseUpBall 0 0 c7Ball) = -100 := by
    rw [orbitTargetX, hang, horb, hspeed]
    rw [show (0 : ℝ) + Real.pi * 1 = Real.pi by ring, Real.cos_pi]
    norm_num
  refine ⟨by simp [c7Ball], htarget, ?_⟩
  rw [htarget, show c7Ball.x = 100 by simp [c7Ball]]
  norm_num

/-! ## Claim C4 -/

/-- Claim C4 (amended): for a ball that is not being dragged, the per-ball
tick branches on gravity, mouse-attraction or mouse-repulsion being active --
not on collision. When none of those three is set it applies the orbital
update (angle advanced by orbitSpeed * speedFactor, exponential smoothing
toward the orbit target with 1 - exp(-5*dt), plus the sin/cos wobble, leaving
velocity untouched); when one of them is set it integrates velocity
(position += velocity * dt * 60), damps velocity by 0.99, and reflects off the
boundaries with factor -0.7 while clamping into [radius, dimension - radius]. -/
theorem c4_integrator_modes (eff : Effects) (speedFactor dt width height cx cy : ℝ)
    (b : Ball) (hd : b.isDragging = false) :
    ((eff.gravity || eff.mouseAttraction || eff.mouseRepulsion) = false →
      updateBall eff speedFactor dt width height cx cy b
        = orbitalStep speedFactor dt cx cy b
      ∧ (orbitalStep speedFactor dt cx cy b).angle
          = b.angle + b.orbitSpeed * speedFactor
      ∧ (orbitalStep speedFactor dt cx cy b).x
          = b.x + (orbitTargetX speedFactor cx b - b.x) * (1 - Real.exp (-5 * dt))
            + Real.sin ((b.angle + b.orbitSpeed * speedFactor) * 2) * 2
      ∧ (orbitalStep speedFactor dt cx cy b).y
          = b.y + (orbitTargetY speedFactor cy b - b.y) * (1 - Real.exp (-5 * dt))
            + Real.cos ((b.angle + b.orbitSpeed * speedFactor) * 1.5) * 2
      ∧ (orbitalStep speedFactor dt cx cy b).vx = b.vx
      ∧ (orbitalStep speedFactor dt cx cy b).vy = b.vy)
    ∧ ((eff.gravity || eff.mouseAttraction || eff.mouseRepulsion) = true →
      updateBall eff speedFactor dt width height cx cy b
        = physicsStep dt width height b
      ∧ (¬ (b.x + b.vx * dt * 60 < b.radius
            ∨ width - b.radius < b.x + b.vx * dt * 60) →
          (physicsStep dt width height b).x = b.x + b.vx * dt * 60
          ∧ (physicsStep dt width height b).vx = b.vx * 0.99)
      ∧ ((b.x + b.vx * dt * 60 < b.radius
            ∨ width - b.radius < b.x + b.vx * dt * 60) →
          (physicsStep dt width height b).x
            = max b.radius (min (width - b.radius) (b.x + b.vx * dt * 60))
          ∧ (physicsStep dt width height b).vx = b.vx * 0.99 * (-0.7))
      ∧ (¬ (b.y + b.vy * dt * 60 < b.radius
            ∨ height - b.radius < b.y + b.vy * dt * 60) →
          (physicsStep dt width height b).y = b.y + b.vy * dt * 60
          ∧ (physicsStep dt width height b).vy = b.vy * 0.99)
      ∧ ((b.y + b.vy * dt * 60 < b.radius
            ∨ height - b.radius < b.y + b.vy * dt * 60) →
          (physicsStep dt width height b).y
            = max b.radius (min (height - b.radius) (b.y + b.vy * dt * 60))
          ∧ (physicsStep dt width height b).vy = b.vy * 0.99 * (-0.7))) := by
  constructor
  · intro hcond
    refine ⟨by simp [updateBall, hd, hcond], rfl, rfl, rfl, rfl, rfl⟩
  · intro hcond
    refine ⟨by simp [updateBall, hd, hcond], ?_, ?_, ?_, ?_⟩
    · intro hx
      simp only [physicsStep]
      rw [if_neg hx]
      exact ⟨rfl, rfl⟩
    · intro hx
      simp only [physicsStep]
      rw [if_pos hx]
      exact ⟨rfl, rfl⟩
    · intro hy
      simp only [physicsStep]
      rw [if_neg hy]
      exact ⟨rfl, rfl⟩
    · intro hy
      simp only [physicsStep]
      rw [if_pos hy]
      exact ⟨rfl, rfl⟩

/-- Witness for C4 at a concrete free ball (c4Ball has isDragging = false). -/
theorem c4_integrator_modes_witness :
    ((effCollisionOnly.gravity || effCollisionOnly.mouseAttraction
        || effCollisionOnly.mouseRepulsion) = false →
      updateBall effCollisionOnly 0.2 0.016 800 600 400 300 c4Ball
        = orbitalStep 0.2 0.016 400 300 c4Ball
      ∧ (orbitalStep 0.2 0.016 400 300 c4Ball).angle
          = c4Ball.angle + c4Ball.orbitSpeed * 0.2
      ∧ (orbitalStep 0.2 0.016 400 300 c4Ball).x
          = c4Ball.x + (orbitTargetX 0.2 400 c4Ball - c4Ball.x)
              * (1 - Real.exp (-5 * 0.016))
            + Real.sin ((c4Ball.angle + c4Ball.orbitSpeed * 0.2) * 2) * 2
      ∧ (orbitalStep 0.2 0.016 400 300 c4Ball).y
          = c4Ball.y + (orbitTargetY 0.2 300 c4Ball - c4Ball.y)
              * (1 - Real.exp (-5 * 0.016))
            + Real.cos ((c4Ball.angle + c4Ball.orbitSpeed * 0.2) * 1.5) * 2
      ∧ (orbitalStep 0.2 0.016 400 300 c4Ball).vx = c4Ball.vx
      ∧ (orbitalStep 0.2 0.016 400 300 c4Ball).vy = c4Ball.vy)
    ∧ ((effCollisionOnly.gravity || effCollisionOnly.mouseAttraction
        || effCollisionOnly.mouseRepulsion) = true →
      updateBall effCollisionOnly 0.2 0.016 800 600 400 300 c4Ball
        = physicsStep 0.016 800 600 c4Ball
      ∧ (¬ (c4Ball.x + c4Ball.vx * 0.016 * 60 < c4Ball.radius
            ∨ 800 - c4Ball.radius < c4Ball.x + c4Ball.vx * 0.016 * 60) →
          (physicsStep 0.016 800 600 c4Ball).x = c4Ball.x + c4Ball.vx * 0.016 * 60
          ∧ (physicsStep 0.016 800 600 c4Ball).vx = c4Ball.vx * 0.99)
      ∧ ((c4Ball.x + c4Ball.vx * 0.016 * 60 < c4Ball.radius
            ∨ 800 - c4Ball.radius < c4Ball.x + c4Ball.vx * 0.016 * 60) →
          (physicsStep 0.016 800 600 c4Ball).x
            = max c4Ball.radius
                (min (800 - c4Ball.radius) (c4Ball.x + c4Ball.vx * 0.016 * 60))
          ∧ (physicsStep 0.016 800 600 c4Ball).vx = c4Ball.vx * 0.99 * (-0.7))
      ∧ (¬ (c4Ball.y + c4Ball.vy * 0.016 * 60 < c4Ball.radius
            ∨ 600 - c4Ball.radius < c4Ball.y + c4Ball.vy * 0.016 * 60) →
          (physicsStep 0.016 800 600 c4Ball).y = c4Ball.y + c4Ball.vy * 0.016 * 60
          ∧ (physicsStep 0.016 800 600 c4Ball).vy = c4Ball.vy * 0.99)
      ∧ ((c4Ball.y + c4Ball.vy * 0.016 * 60 < c4Ball.radius
            ∨ 600 - c4Ball.radius < c4Ball.y + c4Ball.vy * 0.016 * 60) →
          (physicsStep 0.016 800 600 c4Ball).y
            = max c4Ball.radius
                (min (600 - c4Ball.radius) (c4Ball.y + c4Ball.vy * 0.016 * 60))
          ∧ (physicsStep 0.016 800 600 c4Ball).vy = c4Ball.vy * 0.99 * (-0.7))) :=
  c4_integrator_modes effCollisionOnly 0.2 0.016 800 600 400 300 c4Ball
    (by simp [c4Ball])

/-- Counterexample for C4 as stated: with the collision effect active (and the
other physics effects off), the tick still applies the orbital update to a
free ball, so its velocity stays 1 instead of being damped to 0.99 as the
claim's velocity-integration branch would require. -/
theorem c4_cex :
    c4Sys.effects.collision = true
    ∧ c4Sys.balls.headI.isDragging = false
    ∧ c4Sys.balls.headI.vx = 1
    ∧ (updateMetaballs c4Sys 16).balls.headI.vx = 1
    ∧ (1 : ℝ) * 0.99 ≠ 1 := by
  refine ⟨rfl, rfl, by simp [c4Sys, c4Ball], ?_, by norm_num⟩
  simp [updateMetaballs, c4Sys, c4Ball, effCollisionOnly, handleCollisions,
    sweepRows, sweepWithAll, updateBall, orbitalStep]

/-! ## Claim C5 -/

theorem posEq_refl (a : Ball) : PosEq a a := ⟨rfl, rfl, rfl⟩

theorem posEq_trans {a b c : Ball} (h1 : PosEq a b) (h2 : PosEq b c) : PosEq a c :=
  ⟨h1.1.trans h2.1, h1.2.1.trans h2.2.1, h1.2.2.trans h2.2.2⟩

theorem forall₂_posEq_trans {l1 l2 l3 : List Ball}
    (h1 : List.Forall₂ PosEq l1 l2) (h2 : List.Forall₂ PosEq l2 l3) :
    List.Forall₂ PosEq l1 l3 := by
  induction h1 generalizing l3 with
  | nil =>
    cases h2
    exact List.Forall₂.nil
  | cons hab h ih =>
    cases h2 with
    | cons hbc h2t => exact List.Forall₂.cons (posEq_trans hab hbc) (ih h2t)

/-- The gravity kick never moves a ball or touches its drag flag. -/
theorem gravPair_posEq (a c : Ball) :
    PosEq ((gravPair a c).1) a ∧ PosEq ((gravPair a c).2) c := by
  simp only [gravPair]
  split <;> exact ⟨⟨rfl, rfl, rfl⟩, ⟨rfl, rfl, rfl⟩⟩

theorem sweepWithAll_posEq (f : Ball → Ball → Ball × Ball)
    (hf : ∀ a c, PosEq ((f a c).1) a ∧ PosEq ((f a c).2) c) :
    ∀ (l : List Ball) (b : Ball),
      PosEq ((sweepWithAll f b l).1) b
      ∧ List.Forall₂ PosEq (sweepWithAll f b l).2 l := by
  intro l
  induction l with
  | nil => exact fun b => ⟨posEq_refl b, List.Forall₂.nil⟩
  | cons c cs ih =>
    intro b
    simp only [sweepWithAll]
    obtain ⟨h1, h2⟩ := ih (f b c).1
    exact ⟨posEq_trans h1 (hf b c).1, List.Forall₂.cons (hf b c).2 h2⟩

theorem sweepWithAll_length (f : Ball → Ball → Ball × Ball) (b : Ball)
    (l : List Ball) : (sweepWithAll f b l).2.length = l.length := by
  induction l generalizing b with
  | nil => rfl
  | cons c cs ih => simp [sweepWithAll, ih]

/-- A pairwise sweep whose pair response moves nothing moves nothing. -/
theorem sweepRows_posEq (f : Ball → Ball → Ball × Ball)
    (hf : ∀ a c, PosEq ((f a c).1) a ∧ PosEq ((f a c).2) c) :
    ∀ l : List Ball, List.Forall₂ PosEq (sweepRows f l) l := by
  have key : ∀ (n : ℕ) (l : List Ball), l.length = n →
      List.Forall₂ PosEq (sweepRows f l) l := by
    intro n
    induction n using Nat.strong_induction_on with
    | _ n ih =>
      intro l hl
      cases l with
      | nil =>
        simp only [sweepRows]
        exact List.Forall₂.nil
      | cons b bs =>
        simp only [sweepRows]
        obtain ⟨h1, h2⟩ := sweepWithAll_posEq f hf bs b
        refine List.Forall₂.cons h1 (forall₂_posEq_trans ?_ h2)
        have hblen : bs.length < n := by
          simp only [List.length_cons] at hl
          omega
        exact ih (sweepWithAll f b bs).2.length
          (by rw [sweepWithAll_length]; exact hblen) _ rfl
  exact fun l => key l.length l rfl

/-- The mouse force changes only velocities, never position or drag flag. -/
theorem mouseForceBall_posEq (mx my force dir : ℝ) (b : Ball) :
    PosEq (mouseForceBall mx my force dir b) b := by
  simp only [mouseForceBall]
  split
  · exact posEq_refl b
  · split
    · exact ⟨rfl, rfl, rfl⟩
    · exact posEq_refl b

theorem updateBall_dragged (eff : Effects) (speedFactor dt width height cx cy : ℝ)
    (b : Ball) (h : b.isDragging = true) :
    updateBall eff speedFactor dt width height cx cy b = b := by
  simp [updateBall, h]

/-- With the collision effect off, one whole tick relates every output ball to
its input ball so that a dragged input keeps its exact position. -/
theorem updateMetaballs_dragPos (s : Sys) (deltaTime : ℝ)
    (hcol : s.effects.collision = false) :
    List.Forall₂ (fun a b => b.isDragging = true → a.x = b.x ∧ a.y = b.y)
      (updateMetaballs s deltaTime).balls s.balls := by
  have hgrav : List.Forall₂ PosEq
      (if s.effects.gravity then applyGravity s.balls else s.balls) s.balls := by
    cases hgb : s.effects.gravity
    · simp only [Bool.false_eq_true, if_false]
      exact List.forall₂_same.mpr fun b _ => posEq_refl b
    · simp only [if_true]
      exact sweepRows_posEq gravPair gravPair_posEq s.balls
  have hpre : List.Forall₂ PosEq
      (if s.effects.mouseAttraction || s.effects.mouseRepulsion then
        applyMouseForce s.mouse.mx s.mouse.my (s.mouseForce * 0.01)
          (if s.effects.mouseRepulsion then -1 else 1)
          (if s.effects.gravity then applyGravity s.balls else s.balls)
      else if s.effects.gravity then applyGravity s.balls else s.balls)
      s.balls := by
    cases hmb : s.effects.mouseAttraction || s.effects.mouseRepulsion
    · simpa using hgrav
    · simp only [if_true]
      unfold applyMouseForce
      rw [List.forall₂_map_left_iff]
      exact hgrav.imp fun a b hab =>
        posEq_trans (mouseForceBall_posEq _ _ _ _ a) hab
  have hballs : (updateMetaballs s deltaTime).balls
      = (if s.effects.mouseAttraction || s.effects.mouseRepulsion then
          applyMouseForce s.mouse.mx s.mouse.my (s.mouseForce * 0.01)
            (if s.effects.mouseRepulsion then -1 else 1)
            (if s.effects.gravity then applyGravity s.balls else s.balls)
        else if s.effects.gravity then applyGravity s.balls else s.balls).map
          (updateBall s.effects (s.speed * 0.02) (min (deltaTime * 0.001) 0.1)
            s.width s.height s.centerX s.centerY) := by
    simp only [updateMetaballs, hcol, Bool.false_eq_true, if_false]
  rw [hballs, List.forall₂_map_left_iff]
  refine hpre.imp ?_
  intro a b hab hdragb
  have hda : a.isDragging = true := hab.2.2.trans hdragb
  rw [updateBall_dragged _ _ _ _ _ _ _ a hda]
  exact ⟨hab.1, hab.2.1⟩

/-- Claim C5 (amended): the drag target is a single nullable slot, so at most
one ball is the current drag target; the pointer move writes only that target
ball; and with the collision effect disabled a tick never moves a dragged
ball, so each ball's position has one authority per tick. (When collision is
enabled, handleCollisions can additionally displace a dragged ball -- see the
counterexample.) -/
theorem c5_single_authority (s : Sys) (deltaTime x y : ℝ) (i : ℕ) :
    (∀ j k : ℕ, s.mouse.dragged = some j → s.mouse.dragged = some k → j = k)
    ∧ (s.effects.collision = false →
        ∀ b : Ball, s.balls[i]? = some b → b.isDragging = true →
          ∃ a : Ball, (updateMetaballs s deltaTime).balls[i]? = some a
            ∧ a.x = b.x ∧ a.y = b.y)
    ∧ ((∀ j, s.mouse.dragged = some j → j ≠ i) →
        (handleMouseMove s x y).balls[i]? = s.balls[i]?) := by
  refine ⟨?_, ?_, ?_⟩
  · intro j k h1 h2
    exact Option.some.inj (h1.symm.trans h2)
  · intro hcol b hb hdrag
    have hall := updateMetaballs_dragPos s deltaTime hcol
    have hlen := hall.length_eq
    have hi : i < s.balls.length := by
      rcases lt_or_ge i s.balls.length with h | h
      · exact h
      · rw [List.getElem?_eq_none h] at hb
        cases hb
    have hi2 : i < (updateMetaballs s deltaTime).balls.length := by omega
    have hb2 : s.balls.get ⟨i, hi⟩ = b := by
      rw [List.getElem?_eq_getElem hi] at hb
      exact Option.some.inj hb
    have hrel := hall.get hi2 hi
    rw [hb2] at hrel
    refine ⟨(updateMetaballs s deltaTime).balls.get ⟨i, hi2⟩, ?_, hrel hdrag⟩
    rw [List.getElem?_eq_getElem hi2]
    rfl
  · intro hne
    have hcases : (handleMouseMove s x y).balls = s.balls
        ∨ ∃ (j : ℕ) (b : Ball), s.mouse.dragged = some j
            ∧ (handleMouseMove s x y).balls = s.balls.set j b := by
      simp only [handleMouseMove]
      cases hmd : s.mouse.isDragging
      · left
        rfl
      · cases hdr : s.mouse.dragged with
        | none => left; rfl
        | some j =>
          cases hget : s.balls.get? j with
          | none =>
            simp only [hget]
            exact Or.inl trivial
          | some b =>
            simp only [hget]
            right
            exact ⟨j, _, rfl, rfl⟩
    rcases hcases with h | ⟨j, b, hdr, h⟩
    · rw [h]
    · rw [h]
      exact List.getElem?_set_ne (hne j hdr)

/-- Counterexample for C5 as stated: with the collision effect enabled, one
tick moves the dragged ball 0 (held at x = 100) to x = 76.6: the overlap
separation of handleCollisions ignores the drag flag, so both the pointer and
the integrator can move the same ball in one tick. -/
theorem c5_cex :
    c5Sys.mouse.dragged = some 0
    ∧ c5Sys.balls.headI.isDragging = true
    ∧ c5Sys.balls.headI.x = 100
    ∧ (updateMetaballs c5Sys 16).balls.headI.x = 76.6
    ∧ (76.6 : ℝ) ≠ 100 := by
  have hp : pairDist d0 d1 = 50 := by
    simp only [pairDist, d0, d1]
    norm_num
    rw [show (2500 : ℝ) = 50 ^ 2 by norm_num]
    exact Real.sqrt_sq (by norm_num)
  have hdot : relDot d0 d1 = 0 := by
    simp [relDot, d0, d1]
  have hcond : pairDist d0 d1 < (d0.radius + d1.radius) * 0.8 ∧ 0 < pairDist d0 d1 := by
    rw [hp]
    norm_num [d0, d1]
  have hnotdot : ¬ 0 < relDot d0 d1 := by
    rw [hdot]
    norm_num
  have hx : (collidePair d0 d1).1.x = 76.6 := by
    simp only [collidePair]
    rw [if_pos hcond, if_neg hnotdot]
    rw [hp]
    norm_num [d0, d1]
  have hdrag1 : (collidePair d0 d1).1.isDragging = true := by
    simp only [collidePair]
    rw [if_pos hcond, if_neg hnotdot]
    simp [d0]
  refine ⟨rfl, rfl, by simp [c5Sys, d0], ?_, by norm_num⟩
  have hcoll : handleCollisions [d0, d1] = [(collidePair d0 d1).1, (collidePair d0 d1).2] := by
    simp [handleCollisions, sweepRows, sweepWithAll]
  simp only [updateMetaballs, c5Sys, effCollisionOnly, Bool.false_eq_true, if_false,
    if_true, Bool.or_self, hcoll]
  simp only [List.map_cons, List.headI]
  rw [updateBall_dragged _ _ _ _ _ _ _ _ hdrag1]
  exact hx

end

end Metaballs
